/-
Verification of the carverse-backend catalog core against its specification.

The development shallowly embeds, from the JavaScript sources:
  * the seed coordinator middleware `ensureSeedData` (src/seed/seedMiddleware.js),
  * the cars listing handler `GET /api/cars` (filter compilation, pagination,
    sort resolution) from src/routes/cars.js,
  * the comparison engine `POST /api/cars/compare` and `buildComparison`
    from src/routes/cars.js.

JavaScript numbers appearing in the claims are modelled as `Int`
(query-parameter parsing via `jsNumber` covers canonical integer numerals,
the domain over which the claims quantify); absence (`null`/`undefined`) is
modelled with `Option` and an explicit `JsVal.vnull` / `JsVal.vundef`.
-/
import Mathlib

namespace Carverse

/-! ## Seed coordinator (src/seed/seedMiddleware.js)

The middleware's module state is the pair of variables `seedPromise` and
`seedAttempted`.  The gate body up to `next()` is synchronous JavaScript and
therefore runs atomically with respect to other requests on the Node event
loop; we model one gate invocation as one atomic step.  The ghost fields
`pending`, `started`, `inserts` and `store` track the background seed task
and the record store for stating the at-most-once properties. -/

structure SeedState where
  seedAttempted : Bool
  seedPromise : Bool
  /-- seed tasks started whose body has not yet run to completion -/
  pending : Nat
  /-- ghost counter: seed tasks ever started in this process lifetime -/
  started : Nat
  /-- ghost counter: bulk inserts ever performed -/
  inserts : Nat
  /-- current record count of the car collection -/
  store : Nat
  deriving DecidableEq

/-- Process start: `let seedPromise = null; let seedAttempted = false;`,
with `n` records already in the store. -/
def initialSeedState (n : Nat) : SeedState :=
  { seedAttempted := false, seedPromise := false
    pending := 0, started := 0, inserts := 0, store := n }

/-- One synchronous invocation of the `ensureSeedData` middleware
(`dev` is the value of `isDev()` for this process).  The returned `Bool`
is `true` iff `next()` was called during this same synchronous step,
i.e. the request was forwarded without awaiting the seed task. -/
def ensureSeedData (dev : Bool) (s : SeedState) : SeedState × Bool :=
  if s.seedAttempted then (s, true)
  else if !dev then ({ s with seedAttempted := true }, true)
  else if s.seedPromise then (s, true)
  else
    ({ s with seedAttempted := true, seedPromise := true
              pending := s.pending + 1, started := s.started + 1 }, true)

/-- The detached seed task body running to completion: wait for the
connection (`connected` records whether the store became ready within the
bounded retry budget), count the documents, bulk-insert the static dataset
of size `datasetSize` iff the count is zero, and finally reset
`seedPromise` to `null`.  A run with no task in flight is a no-op. -/
def runSeedTask (connected : Bool) (datasetSize : Nat) (s : SeedState) : SeedState :=
  if s.pending = 0 then s
  else
    let s' := { s with pending := s.pending - 1, seedPromise := false }
    if !connected then s'
    else if s'.store = 0 then
      { s' with store := datasetSize, inserts := s'.inserts + 1 }
    else s'

/-- Interleaved events on the shared seed state: a request hitting the
gate, or a started seed task's body running. -/
inductive SeedEvent where
  | request
  | taskRun (connected : Bool)
  deriving DecidableEq

def seedStep (dev : Bool) (datasetSize : Nat) (s : SeedState) : SeedEvent → SeedState
  | .request => (ensureSeedData dev s).1
  | .taskRun c => runSeedTask c datasetSize s

/-- Run a whole trace of interleaved events. -/
def seedRun (dev : Bool) (datasetSize : Nat) (tr : List SeedEvent) (s : SeedState) : SeedState :=
  tr.foldl (seedStep dev datasetSize) s

/-- Inductive invariant of the seed coordinator. -/
def seedInv (s : SeedState) : Prop :=
  (s.seedAttempted = false → s.started = 0) ∧
  s.started ≤ 1 ∧
  s.inserts + s.pending ≤ s.started

/-! ## Cars router: values and comparison engine (src/routes/cars.js) -/

/-- A JavaScript value as it appears in a comparison cell. -/
inductive JsVal where
  | vnull
  | vundef
  | vnum (n : Int)
  | vstr (s : String)
  | vbool (b : Bool)
  deriving DecidableEq

/-- JavaScript `String(v)` on the values the comparison engine produces. -/
def jsString : JsVal → String
  | .vnull => "null"
  | .vundef => "undefined"
  | .vnum n => toString n
  | .vstr s => s
  | .vbool b => if b then "true" else "false"

structure Price where
  min : Option Int
  max : Option Int
  deriving DecidableEq

structure Engine where
  displacement : Option Int := none
  cylinders : Option Int := none
  turbo : Option Bool := none
  deriving DecidableEq

/-- A vehicle record as the comparison engine reads it (absent schema
fields are `none`). -/
structure Car where
  id : String
  brand : Option String := none
  model : Option String := none
  bodyType : Option String := none
  fuelType : Option String := none
  transmission : Option String := none
  driveType : Option String := none
  powerBHP : Option Int := none
  torqueNm : Option Int := none
  topSpeed : Option Int := none
  zeroToHundred : Option Int := none
  mileage : Option Int := none
  range : Option Int := none
  seatingCapacity : Option Int := none
  safetyRating : Option Int := none
  launchYear : Option Int := none
  engine : Option Engine := none
  price : Option Price := none
  deriving DecidableEq

def groupPairsRev : List Char → List String
  | [] => []
  | [a] => [String.mk [a]]
  | a :: b :: rest => groupPairsRev rest ++ [String.mk [b, a]]

/-- `n.toLocaleString('en-IN')`: the last three digits form one group,
the remaining digits are grouped in pairs. -/
def localeIN (n : Nat) : String :=
  let ds := (toString n).data
  if ds.length ≤ 3 then toString n
  else
    String.intercalate ","
      (groupPairsRev (ds.take (ds.length - 3)).reverse
        ++ [String.mk (ds.drop (ds.length - 3))])

/-- `` `₹${n.toLocaleString('en-IN')}` `` -/
def fmtINR (n : Int) : String :=
  if n < 0 then "₹" ++ "-" ++ localeIN n.natAbs else "₹" ++ localeIN n.natAbs

/-- JavaScript truthiness of a possibly-absent number: `0`, `null` and
`undefined` are all falsy. -/
def truthyNum : Option Int → Bool
  | none => false
  | some n => n != 0

/-- The derived price cell of `buildComparison` (`key === 'price'`):
the truthiness-guarded `if`/`else if` chain, branch for branch. -/
def priceValue (c : Car) : JsVal :=
  match c.price with
  | none => .vnull
  | some p =>
    if truthyNum p.min && truthyNum p.max then
      if p.min = p.max then .vstr (fmtINR (p.min.getD 0))
      else .vstr (fmtINR (p.min.getD 0) ++ " - " ++ fmtINR (p.max.getD 0))
    else if truthyNum p.min then .vstr (fmtINR (p.min.getD 0))
    else if truthyNum p.max then .vstr (fmtINR (p.max.getD 0))
    else .vnull

/-- The fixed comparison schema: `specKeys` of `buildComparison`, in
declaration order. -/
def specKeys : List (String × String) :=
  [("brand", "Brand"), ("model", "Model"), ("bodyType", "Body Type"),
   ("fuelType", "Fuel Type"), ("transmission", "Transmission"),
   ("driveType", "Drive Type"), ("powerBHP", "Power (BHP)"),
   ("torqueNm", "Torque (Nm)"), ("topSpeed", "Top Speed (km/h)"),
   ("zeroToHundred", "0-100 km/h (s)"), ("mileage", "Mileage (km/L)"),
   ("range", "Range (km)"), ("seatingCapacity", "Seating Capacity"),
   ("safetyRating", "Safety Rating"), ("launchYear", "Launch Year"),
   ("engine.displacement", "Engine (cc)"), ("engine.cylinders", "Cylinders"),
   ("engine.turbo", "Turbo"), ("price", "Price (INR)")]

def optS : Option String → JsVal
  | none => .vnull
  | some s => .vstr s

def optN : Option Int → JsVal
  | none => .vnull
  | some n => .vnum n

def optB : Option Bool → JsVal
  | none => .vnull
  | some b => .vbool b

/-- The per-key value extraction of `buildComparison`: dotted `engine.*`
paths (`c[parts[0]]?.[parts[1]] ?? null`), the derived `price`, and plain
fields (`c[key] ?? null`).  The source walks the key dynamically over the
fixed `specKeys` schema, so the extraction is spelled out per key. -/
def carField (c : Car) : String → JsVal
  | "brand" => optS c.brand
  | "model" => optS c.model
  | "bodyType" => optS c.bodyType
  | "fuelType" => optS c.fuelType
  | "transmission" => optS c.transmission
  | "driveType" => optS c.driveType
  | "powerBHP" => optN c.powerBHP
  | "torqueNm" => optN c.torqueNm
  | "topSpeed" => optN c.topSpeed
  | "zeroToHundred" => optN c.zeroToHundred
  | "mileage" => optN c.mileage
  | "range" => optN c.range
  | "seatingCapacity" => optN c.seatingCapacity
  | "safetyRating" => optN c.safetyRating
  | "launchYear" => optN c.launchYear
  | "engine.displacement" =>
    match c.engine with
    | none => .vnull
    | some e => optN e.displacement
  | "engine.cylinders" =>
    match c.engine with
    | none => .vnull
    | some e => optN e.cylinders
  | "engine.turbo" =>
    match c.engine with
    | none => .vnull
    | some e => optB e.turbo
  | "price" => priceValue c
  | _ => .vnull

structure SpecValue where
  carId : String
  value : JsVal
  deriving DecidableEq

structure SpecRow where
  key : String
  label : String
  values : List SpecValue
  differs : Bool
  deriving DecidableEq

def defaultRow : SpecRow := ⟨"", "", [], false⟩

/-- `buildComparison(cars)`: one row per schema key, with one value per
car (in the cars' order) and the string-equality `differs` flag against
the first car's value (`values[0]?.value`). -/
def buildComparison (cars : List Car) : List SpecRow :=
  specKeys.map fun kl =>
    let values := cars.map fun c => SpecValue.mk c.id (carField c kl.1)
    let base := match values.head? with
      | some v => v.value
      | none => JsVal.vundef
    { key := kl.1, label := kl.2, values := values
      differs := values.any fun v => jsString v.value != jsString base }

/-- `mongoose.Types.ObjectId.isValid` on its canonical input form:
a 24-character hexadecimal string. -/
def isValidObjectId (s : String) : Bool :=
  s.length == 24 && s.data.all fun c =>
    c.isDigit || ('a' ≤ c && c ≤ 'f') || ('A' ≤ c && c ≤ 'F')

inductive CompareResp where
  | badCount
  | badIds (invalidIds : List String)
  | notFound (missing : List String)
  | internalOrderFail
  | ok (cars : List Car) (comparison : List SpecRow)
  deriving DecidableEq

/-- `orderedCars` of the compare handler: walk the requested ids in order
and look each up in the fetched batch
(`ids.map((id) => cars.find(...)).filter(Boolean)`). -/
def orderedOf (ids : List String) (fetched : List Car) : List Car :=
  ids.filterMap fun i => fetched.find? fun c => c.id == i

/-- POST /api/cars/compare, given the batch `fetched` the store returned
for `Car.find({ _id: { $in: ids } })`.  The body-shape checks (`ids`
present, an array of strings) are discharged by the type of `ids`. -/
def compareHandler (ids : List String) (fetched : List Car) : CompareResp :=
  if ids.length < 2 ∨ 4 < ids.length then .badCount
  else
    let invalidIds := ids.filter fun i => !(isValidObjectId i)
    if invalidIds ≠ [] then .badIds invalidIds
    else
      let foundIds := fetched.map (·.id)
      let missing := ids.filter fun i => !(foundIds.contains i)
      if missing ≠ [] then .notFound missing
      else
        let orderedCars := orderedOf ids fetched
        if orderedCars.length ≠ ids.length then .internalOrderFail
        else .ok orderedCars (buildComparison orderedCars)

/-! ## Cars router: listing handler (filter compiler, pagination, sort) -/

def digitsToNat (cs : List Char) : Nat :=
  cs.foldl (fun acc c => acc * 10 + (c.toNat - '0'.toNat)) 0

/-- JavaScript `Number(s)` on canonical integer numerals: `Number('') = 0`,
a non-numeral yields `NaN` (modelled as `none`). -/
def jsNumber (s : String) : Option Int :=
  if s = "" then some 0
  else
    match s.data with
    | '-' :: rest =>
      if rest ≠ [] && rest.all Char.isDigit then
        some (-(Int.ofNat (digitsToNat rest)))
      else none
    | cs =>
      if cs.all Char.isDigit then some (Int.ofNat (digitsToNat cs)) else none

/-- The value of `x ? Number(x) : null` on a query parameter: `null`, a
number, or `NaN`. -/
inductive JsNumV where
  | null
  | nan
  | num (n : Int)
  deriving DecidableEq

/-- Truthiness of an optional query-parameter string (only `''` is falsy). -/
def truthyStr : Option String → Bool
  | none => false
  | some s => s != ""

/-- `x ? Number(x) : null`. -/
def parseParamNum : Option String → JsNumV
  | none => .null
  | some s =>
    if s = "" then .null
    else
      match jsNumber s with
      | some n => .num n
      | none => .nan

/-- One disjunct of the compiled `$or` price predicate, as the listing
handler pushes it: range conditions on the `price.min` / `price.max`
paths; `spans` is the `$and` pair. -/
inductive PriceClause where
  | minBetween (lo hi : Int)
  | maxBetween (lo hi : Int)
  | spans (lo hi : Int)
  | maxGte (v : Int)
  | minGte (v : Int)
  | minLte (v : Int)
  | maxLte (v : Int)
  deriving DecidableEq

/-- MongoDB evaluation of one `$or` disjunct against a record whose
`price.min` / `price.max` fields may be missing; a missing field matches
no range condition. -/
def evalClause (pmin pmax : Option Int) : PriceClause → Bool
  | .minBetween lo hi =>
    match pmin with
    | some x => decide (lo ≤ x ∧ x ≤ hi)
    | none => false
  | .maxBetween lo hi =>
    match pmax with
    | some x => decide (lo ≤ x ∧ x ≤ hi)
    | none => false
  | .spans lo hi =>
    (match pmin with
     | some x => decide (x ≤ lo)
     | none => false) &&
    (match pmax with
     | some x => decide (hi ≤ x)
     | none => false)
  | .maxGte v =>
    match pmax with
    | some x => decide (v ≤ x)
    | none => false
  | .minGte v =>
    match pmin with
    | some x => decide (v ≤ x)
    | none => false
  | .minLte v =>
    match pmin with
    | some x => decide (x ≤ v)
    | none => false
  | .maxLte v =>
    match pmax with
    | some x => decide (x ≤ v)
    | none => false

def evalPriceOr (cs : List PriceClause) (pmin pmax : Option Int) : Bool :=
  cs.any (evalClause pmin pmax)

/-- The 400 responses the listing handler can produce, in source order. -/
inductive ListErr where
  | invalidMinPrice
  | invalidMaxPrice
  | minGreaterThanMax
  | invalidMinPower
  | invalidLaunchYear
  deriving DecidableEq

/-- The price block of the listing handler: `isNaN` validation in source
order, the `min > max` check, then the pushed `$or` clauses for the
two-sided and one-sided cases. -/
def pricePredicate (mn mx : JsNumV) : Except ListErr (List PriceClause) :=
  match mn, mx with
  | .nan, _ => .error .invalidMinPrice
  | _, .nan => .error .invalidMaxPrice
  | .num a, .num b =>
    if a > b then .error .minGreaterThanMax
    else .ok [.minBetween a b, .maxBetween a b, .spans a b]
  | .num a, .null => .ok [.maxGte a, .minGte a]
  | .null, .num b => .ok [.minLte b, .maxLte b]
  | .null, .null => .ok []

/-- The raw query parameters of GET /api/cars (absent parameter = `none`;
Express delivers present parameters as strings). -/
structure ListParams where
  page : Option String := none
  limit : Option String := none
  q : Option String := none
  brand : Option String := none
  bodyType : Option String := none
  fuelType : Option String := none
  transmission : Option String := none
  minPrice : Option String := none
  maxPrice : Option String := none
  minPower : Option String := none
  launchYear : Option String := none
  discontinued : Option String := none
  tags : Option String := none
  sort : Option String := none
  deriving DecidableEq

/-- `if (minPrice || maxPrice) { ... }`: the whole price block. -/
def priceOrE (p : ListParams) : Except ListErr (Option (List PriceClause)) :=
  if truthyStr p.minPrice || truthyStr p.maxPrice then
    match pricePredicate (parseParamNum p.minPrice) (parseParamNum p.maxPrice) with
    | .error e => .error e
    | .ok cs => .ok (some cs)
  else .ok none

/-- `if (minPower) { const power = Number(minPower); if (isNaN(power))
return 400; query.powerBHP = { $gte: power }; }` -/
def powerE (p : ListParams) : Except ListErr (Option Int) :=
  if truthyStr p.minPower then
    match jsNumber (p.minPower.getD "") with
    | none => .error .invalidMinPower
    | some v => .ok (some v)
  else .ok none

def yearE (p : ListParams) : Except ListErr (Option Int) :=
  if truthyStr p.launchYear then
    match jsNumber (p.launchYear.getD "") with
    | none => .error .invalidLaunchYear
    | some v => .ok (some v)
  else .ok none

/-- `if (x && typeof x === 'string' && x.trim())` gates (`q`, `brand`). -/
def trimmedNonempty (o : Option String) : Option String :=
  match o with
  | some s => if s ≠ "" && s.trim ≠ "" then some s.trim else none
  | none => none

/-- `if (x && typeof x === 'string')` gates (`bodyType`, `fuelType`,
`transmission`): the stored value is trimmed but the gate is not. -/
def trimIfTruthy (o : Option String) : Option String :=
  match o with
  | some s => if s ≠ "" then some s.trim else none
  | none => none

/-- `if (discontinued !== undefined) query.discontinued =
discontinued === 'true' || discontinued === true` -/
def discontinuedOf (o : Option String) : Option Bool :=
  match o with
  | some s => some (s == "true")
  | none => none

/-- `tags.split(',').map(t => t.trim().toLowerCase()).filter(Boolean)`,
kept only when nonempty. -/
def tagsOf (o : Option String) : Option (List String) :=
  match o with
  | none => none
  | some s =>
    if s ≠ "" then
      let arr := ((s.splitOn ",").map fun t => t.trim.toLower).filter fun t => t != ""
      if arr ≠ [] then some arr else none
    else none

inductive SortKey where
  | createdAt
  | priceMin
  | priceMax
  | powerBHP
  | launchYear
  | mileage
  deriving DecidableEq

inductive SortDir where
  | asc
  | desc
  deriving DecidableEq

structure SortSpec where
  key : SortKey
  dir : SortDir
  deriving DecidableEq

/-- The own properties of the `SORT_FIELDS` object literal. -/
def SORT_FIELDS : String → Option SortSpec
  | "newest" => some ⟨.createdAt, .desc⟩
  | "oldest" => some ⟨.createdAt, .asc⟩
  | "priceAsc" => some ⟨.priceMin, .asc⟩
  | "priceDesc" => some ⟨.priceMax, .desc⟩
  | "powerAsc" => some ⟨.powerBHP, .asc⟩
  | "powerDesc" => some ⟨.powerBHP, .desc⟩
  | "yearAsc" => some ⟨.launchYear, .asc⟩
  | "yearDesc" => some ⟨.launchYear, .desc⟩
  | "mileageAsc" => some ⟨.mileage, .asc⟩
  | "mileageDesc" => some ⟨.mileage, .desc⟩
  | _ => none

/-- A value JavaScript property access can read off `SORT_FIELDS`: an own
sort specification, or a member inherited from `Object.prototype`
(a function or object, hence truthy). -/
inductive LookupVal where
  | spec (s : SortSpec)
  | protoMember (name : String)
  deriving DecidableEq

/-- The member names every object literal inherits from
`Object.prototype`. -/
def objectProtoMembers : List String :=
  ["constructor", "hasOwnProperty", "isPrototypeOf", "propertyIsEnumerable",
   "toLocaleString", "toString", "valueOf", "__proto__",
   "__defineGetter__", "__defineSetter__", "__lookupGetter__", "__lookupSetter__"]

/-- `SORT_FIELDS[sort]` as JavaScript evaluates it: own properties first,
then the prototype chain. -/
def sortLookup (sort : String) : Option LookupVal :=
  match SORT_FIELDS sort with
  | some s => some (.spec s)
  | none =>
    if sort ∈ objectProtoMembers then some (.protoMember sort) else none

/-- `SORT_FIELDS[sort] || SORT_FIELDS.newest` (an inherited member is a
function or object and therefore truthy, so it survives the `||`). -/
def sortOption (sort : String) : LookupVal :=
  (sortLookup sort).getD (.spec ⟨.createdAt, .desc⟩)

/-- JavaScript `x || d` on a number that may be `NaN` (`none`):
`0` and `NaN` both fall back. -/
def numOr (v : Option Int) (d : Int) : Int :=
  match v with
  | some n => if n = 0 then d else n
  | none => d

/-- `Math.min(Math.max(Number(limit) || 12, 1), 50)`; an absent parameter
is the destructuring default `12`. -/
def resolveLimit (limit : Option String) : Int :=
  min (max (match limit with
            | none => 12
            | some s => numOr (jsNumber s) 12) 1) 50

/-- `Math.max(Number(page) || 1, 1)`; an absent parameter is the
destructuring default `1`. -/
def resolvePage (page : Option String) : Int :=
  max (match page with
       | none => 1
       | some s => numOr (jsNumber s) 1) 1

/-- The single store request (`find` + `countDocuments`) the listing
handler issues when validation succeeds. -/
structure ListQuery where
  textSearch : Option String
  brand : Option String
  bodyType : Option String
  fuelType : Option String
  transmission : Option String
  priceOr : Option (List PriceClause)
  minPower : Option Int
  launchYear : Option Int
  discontinued : Option Bool
  tags : Option (List String)
  sortSpec : LookupVal
  page : Int
  limit : Int
  skip : Int
  deriving DecidableEq

instance {ε α : Type} [DecidableEq ε] [DecidableEq α] : DecidableEq (Except ε α) := fun a b =>
  match a, b with
  | .error e, .error f =>
    match decEq e f with
    | .isTrue h => .isTrue (congrArg Except.error h)
    | .isFalse h => .isFalse fun hc => h (Except.error.inj hc)
  | .ok x, .ok y =>
    match decEq x y with
    | .isTrue h => .isTrue (congrArg Except.ok h)
    | .isFalse h => .isFalse fun hc => h (Except.ok.inj hc)
  | .error _, .ok _ => .isFalse fun hc => Except.noConfusion hc
  | .ok _, .error _ => .isFalse fun hc => Except.noConfusion hc

/-- GET /api/cars: compile the filters (with validation failures returned
before any store call, in source order: price, then minPower, then
launchYear), resolve pagination and sort, and produce the store request.
An `.error` response means no store query is issued. -/
def listHandler (p : ListParams) : Except ListErr ListQuery :=
  match priceOrE p with
  | .error e => .error e
  | .ok priceOr =>
    match powerE p with
    | .error e => .error e
    | .ok minPower =>
      match yearE p with
      | .error e => .error e
      | .ok launchYear =>
        let numericLimit := resolveLimit p.limit
        let numericPage := resolvePage p.page
        .ok { textSearch := trimmedNonempty p.q
              brand := (trimmedNonempty p.brand).map String.toUpper
              bodyType := trimIfTruthy p.bodyType
              fuelType := trimIfTruthy p.fuelType
              transmission := trimIfTruthy p.transmission
              priceOr := priceOr
              minPower := minPower
              launchYear := launchYear
              discontinued := discontinuedOf p.discontinued
              tags := tagsOf p.tags
              sortSpec := sortOption (p.sort.getD "newest")
              page := numericPage
              limit := numericLimit
              skip := (numericPage - 1) * numericLimit }

/-! ## Spec-side definitions for refinement comparisons -/

/-- The price derivation as the specification states it, reading a bound
as "present" when it exists (`isSome`): single value when both bounds are
present and equal, hyphenated range when both are present and differ, the
single present bound, absent when neither is present.  Written from the
spec's words, to compare against `priceValue` (translated from the code). -/
def priceValueSpec (c : Car) : JsVal :=
  match c.price with
  | none => .vnull
  | some p =>
    match p.min, p.max with
    | some a, some b =>
      if a = b then .vstr (fmtINR a)
      else .vstr (fmtINR a ++ " - " ++ fmtINR b)
    | some a, none => .vstr (fmtINR a)
    | none, some b => .vstr (fmtINR b)
    | none, none => .vnull

/-- A bound that is "present" in the amended sense: set and nonzero
(JavaScript-truthy). -/
def presentBound (o : Option Int) : Option Int :=
  match o with
  | some n => if n = 0 then none else some n
  | none => none

/-- The amended price derivation: same four-way case split, with
"present" meaning set-and-nonzero. -/
def priceValueAmended (c : Car) : JsVal :=
  match c.price with
  | none => .vnull
  | some p =>
    match presentBound p.min, presentBound p.max with
    | some a, some b =>
      if a = b then .vstr (fmtINR a)
      else .vstr (fmtINR a ++ " - " ++ fmtINR b)
    | some a, none => .vstr (fmtINR a)
    | none, some b => .vstr (fmtINR b)
    | none, none => .vnull

/-! ## Concrete instances used by witnesses and counterexamples -/

def idA : String := "aaaaaaaaaaaaaaaaaaaaaaaa"

def idB : String := "bbbbbbbbbbbbbbbbbbbbbbbb"

def carA : Car := { id := idA, brand := some "TOYOTA", safetyRating := some 5 }

def carB : Car := { id := idB }

def carZeroPrice : Car := { id := idA, price := some ⟨some 0, some 0⟩ }

def pLimitZero : ListParams := { limit := some "0" }

def pLimit1000 : ListParams := { limit := some "1000" }

def pPriceExample : ListParams :=
  { minPrice := some "600000", maxPrice := some "650000" }

def pMinGtMax : ListParams :=
  { minPrice := some "5", maxPrice := some "4", brand := some "bmw"
    tags := some "ev, sporty", sort := some "priceAsc" }

end Carverse

namespace Carverse

theorem seedInv_init (n : Nat) : seedInv (initialSeedState n) := by
  simp [seedInv, initialSeedState]

theorem seedInv_step (dev : Bool) (dsz : Nat) (s : SeedState) (e : SeedEvent)
    (h : seedInv s) : seedInv (seedStep dev dsz s e) := by
  obtain ⟨h1, h2, h3⟩ := h
  cases e with
  | request =>
    simp only [seedStep, ensureSeedData]
    split
    · exact ⟨h1, h2, h3⟩
    · split
      · next hA _ =>
        simp only [Bool.not_eq_true] at hA
        constructor
        · intro hc; simp at hc
        · exact ⟨h2, h3⟩
      · split
        · exact ⟨h1, h2, h3⟩
        · next hA _ _ =>
          simp only [Bool.not_eq_true] at hA
          have h0 := h1 hA
          refine ⟨by simp, by simp; omega, by simp; omega⟩
  | taskRun c =>
    simp only [seedStep, runSeedTask]
    split
    · exact ⟨h1, h2, h3⟩
    · next hp =>
      split
      · exact ⟨h1, h2, by simp; omega⟩
      · split
        · refine ⟨h1, h2, by simp; omega⟩
        · exact ⟨h1, h2, by simp; omega⟩

theorem seedInv_run (dev : Bool) (dsz : Nat) (tr : List SeedEvent) (s : SeedState)
    (h : seedInv s) : seedInv (seedRun dev dsz tr s) := by
  induction tr generalizing s with
  | nil => exact h
  | cons e tr ih =>
    simpa [seedRun, List.foldl_cons] using ih _ (seedInv_step dev dsz s e h)

/-- Once `seedAttempted` is set the gate is a pure pass-through. -/
theorem gate_noop (dev : Bool) (dsz : Nat) (s : SeedState)
    (h : s.seedAttempted = true) : seedStep dev dsz s .request = s := by
  simp [seedStep, ensureSeedData, h]

/-- The state reached after the very first request in development mode. -/
theorem first_request (dsz n : Nat) :
    seedStep true dsz (initialSeedState n) .request =
      { seedAttempted := true, seedPromise := true
        pending := 1, started := 1, inserts := 0, store := n } := by
  simp [seedStep, ensureSeedData, initialSeedState]

theorem replicate_requests (dsz n N : Nat) (hN : 0 < N) :
    seedRun true dsz (List.replicate N .request) (initialSeedState n) =
      { seedAttempted := true, seedPromise := true
        pending := 1, started := 1, inserts := 0, store := n } := by
  induction N with
  | zero => omega
  | succ k ih =>
    rw [List.replicate_succ, seedRun, List.foldl_cons, ← seedRun, first_request]
    cases Nat.eq_zero_or_pos k with
    | inl h0 => subst h0; simp [seedRun]
    | inr hk =>
      have hfix : ∀ m, seedRun true dsz (List.replicate m .request)
          ({ seedAttempted := true, seedPromise := true
             pending := 1, started := 1, inserts := 0, store := n } : SeedState) =
          { seedAttempted := true, seedPromise := true
            pending := 1, started := 1, inserts := 0, store := n } := by
        intro m
        induction m with
        | zero => simp [seedRun]
        | succ j ihj =>
          rw [List.replicate_succ, seedRun, List.foldl_cons, ← seedRun,
            gate_noop _ _ _ rfl, ihj]
      exact hfix k

/-- **C1**: over every interleaving of gate invocations and task runs from
process start, at most one seed task is ever started and at most one bulk
insert ever occurs; every gate invocation calls `next()` synchronously,
never awaiting the seed task; and with seeding permitted, under `N ≥ 1`
concurrent first requests to an empty store followed by the task body's
run, exactly one bulk insert occurs and the final record count equals the
dataset size (never a multiple of it). -/
theorem seed_gate_at_most_once_and_nonblocking :
    (∀ (dev : Bool) (dsz n : Nat) (tr : List SeedEvent),
      (seedRun dev dsz tr (initialSeedState n)).started ≤ 1 ∧
      (seedRun dev dsz tr (initialSeedState n)).inserts ≤ 1) ∧
    (∀ (dev : Bool) (s : SeedState), (ensureSeedData dev s).2 = true) ∧
    (∀ (dsz N : Nat), 0 < N →
      seedRun true dsz (List.replicate N .request ++ [.taskRun true])
          (initialSeedState 0) =
        { seedAttempted := true, seedPromise := false
          pending := 0, started := 1, inserts := 1, store := dsz }) := by
  refine ⟨?_, ?_, ?_⟩
  · intro dev dsz n tr
    obtain ⟨-, hs, hi⟩ := seedInv_run dev dsz tr _ (seedInv_init n)
    exact ⟨hs, by omega⟩
  · intro dev s
    unfold ensureSeedData
    split
    · rfl
    · split
      · rfl
      · split
        · rfl
        · rfl
  · intro dsz N hN
    have hsplit : seedRun true dsz (List.replicate N .request ++ [.taskRun true])
        (initialSeedState 0) =
        seedRun true dsz [.taskRun true]
          (seedRun true dsz (List.replicate N .request) (initialSeedState 0)) := by
      simp [seedRun, List.foldl_append]
    rw [hsplit, replicate_requests dsz 0 N hN]
    simp [seedRun, seedStep, runSeedTask]

/-- Witness for C1: three concurrent first requests, dataset size 100. -/
theorem seed_gate_at_most_once_witness :
    (0:Nat) < 3 ∧
    seedRun true 100 (List.replicate 3 .request ++ [.taskRun true])
        (initialSeedState 0) =
      { seedAttempted := true, seedPromise := false
        pending := 0, started := 1, inserts := 1, store := 100 } :=
  ⟨by decide, seed_gate_at_most_once_and_nonblocking.2.2 100 3 (by decide)⟩

/-- Walking the requested ids and looking each up in a batch that contains
them all yields one car per id, in the ids' order, all drawn from the
batch. -/
theorem orderedOf_spec (ids : List String) (fetched : List Car)
    (hfound : ∀ i ∈ ids, i ∈ fetched.map (·.id)) :
    (orderedOf ids fetched).map (·.id) = ids ∧
    ∀ c ∈ orderedOf ids fetched, c ∈ fetched := by
  induction ids with
  | nil => simp [orderedOf]
  | cons i ids ih =>
    obtain ⟨c, hc, hcid⟩ := List.mem_map.1 (hfound i (by simp))
    have hsome : (fetched.find? fun d => d.id == i).isSome := by
      rw [List.find?_isSome]
      exact ⟨c, hc, by simp [hcid]⟩
    obtain ⟨c', hc'⟩ := Option.isSome_iff_exists.1 hsome
    have hc'id : c'.id = i := by simpa using List.find?_some hc'
    have hc'mem : c' ∈ fetched := List.mem_of_find?_eq_some hc'
    have ihh := ih fun j hj => hfound j (by simp [hj])
    constructor
    · simpa [orderedOf, List.filterMap_cons, hc', hc'id] using ihh.1
    · intro d hd
      rw [orderedOf, List.filterMap_cons, hc'] at hd
      rcases List.mem_cons.1 hd with h | h
      · exact h ▸ hc'mem
      · exact ihh.2 d h

/-- When the count is valid, all ids are well-formed and all are found in
the batch, the compare handler succeeds with the re-ordered cars. -/
theorem compareHandler_ok (ids : List String) (fetched : List Car)
    (h2 : 2 ≤ ids.length) (h4 : ids.length ≤ 4)
    (hvalid : ∀ i ∈ ids, isValidObjectId i = true)
    (hfound : ∀ i ∈ ids, i ∈ fetched.map (·.id)) :
    compareHandler ids fetched =
      .ok (orderedOf ids fetched) (buildComparison (orderedOf ids fetched)) := by
  have hmap := (orderedOf_spec ids fetched hfound).1
  have hlen : (orderedOf ids fetched).length = ids.length := by
    have := congrArg List.length hmap
    simpa using this
  have hinv : (ids.filter fun i => !(isValidObjectId i)) = [] := by
    rw [List.filter_eq_nil_iff]
    intro i hi
    simp [hvalid i hi]
  have hmiss : (ids.filter fun i => !((fetched.map (·.id)).contains i)) = [] := by
    rw [List.filter_eq_nil_iff]
    intro i hi
    simpa using hfound i hi
  unfold compareHandler
  rw [if_neg (by omega)]
  simp only [hinv, hmiss]
  rw [if_neg (by simp), if_neg (by simp), if_neg (by omega)]

/-- Every comparison row carries one value per car, in the cars' order. -/
theorem buildComparison_row_carIds (cars : List Car) :
    ∀ row ∈ buildComparison cars, row.values.map (·.carId) = cars.map (·.id) := by
  intro row hrow
  obtain ⟨kl, hkl, hre⟩ := List.mem_map.1 hrow
  rw [← hre]
  simp [List.map_map, Function.comp_def]

/-- In a batch with pairwise distinct ids, two members with the same id
are the same record. -/
theorem fetched_id_inj (fetched : List Car)
    (hnodup : (fetched.map (·.id)).Nodup) :
    ∀ c1 ∈ fetched, ∀ c2 ∈ fetched, c1.id = c2.id → c1 = c2 := by
  intro c1 h1 c2 h2 he
  exact List.inj_on_of_nodup_map hnodup h1 h2 he

/-- **C2**: for a successful compare request (2–4 well-formed ids, all
found, ids unique in the store batch), the handler succeeds and the
returned cars list preserves exactly the input id order — position `i`
holds the unique fetched record whose id is `ids[i]` — and every
comparison row's values are in that same input order, for every order of
the fetched batch. -/
theorem compare_preserves_input_order (ids : List String) (fetched : List Car)
    (h2 : 2 ≤ ids.length) (h4 : ids.length ≤ 4)
    (hvalid : ∀ i ∈ ids, isValidObjectId i = true)
    (hnodup : (fetched.map (·.id)).Nodup)
    (hfound : ∀ i ∈ ids, i ∈ fetched.map (·.id)) :
    compareHandler ids fetched =
      .ok (orderedOf ids fetched) (buildComparison (orderedOf ids fetched)) ∧
    (orderedOf ids fetched).map (·.id) = ids ∧
    (∀ c ∈ orderedOf ids fetched, c ∈ fetched) ∧
    (∀ c1 ∈ fetched, ∀ c2 ∈ fetched, c1.id = c2.id → c1 = c2) ∧
    (∀ row ∈ buildComparison (orderedOf ids fetched),
      row.values.map (·.carId) = ids) := by
  obtain ⟨hmap, hsub⟩ := orderedOf_spec ids fetched hfound
  refine ⟨compareHandler_ok ids fetched h2 h4 hvalid hfound, hmap, hsub,
    fetched_id_inj fetched hnodup, ?_⟩
  intro row hrow
  rw [buildComparison_row_carIds _ row hrow, hmap]

/-- Witness for C2: input order `[B, A]`, store batch order `[A, B]`. -/
theorem compare_preserves_input_order_witness :
    compareHandler [idB, idA] [carA, carB] =
      .ok (orderedOf [idB, idA] [carA, carB])
        (buildComparison (orderedOf [idB, idA] [carA, carB])) ∧
    (orderedOf [idB, idA] [carA, carB]).map (·.id) = [idB, idA] :=
  ⟨(compare_preserves_input_order [idB, idA] [carA, carB] (by decide) (by decide)
      (by decide) (by decide) (by decide)).1,
   (compare_preserves_input_order [idB, idA] [carA, carB] (by decide) (by decide)
      (by decide) (by decide) (by decide)).2.1⟩

/-- **C7**: for well-formed ids of valid count with at least one id absent
from the store, the handler answers `notFound` carrying exactly the
requested ids that have no record, and never a partial `ok` result. -/
theorem compare_missing_is_all_or_nothing (ids : List String)
    (store fetched : List Car)
    (h2 : 2 ≤ ids.length) (h4 : ids.length ≤ 4)
    (hvalid : ∀ i ∈ ids, isValidObjectId i = true)
    (hfetch : ∀ i ∈ ids, (i ∈ fetched.map (·.id) ↔ i ∈ store.map (·.id)))
    (hmiss : ∃ i ∈ ids, i ∉ store.map (·.id)) :
    compareHandler ids fetched =
      .notFound (ids.filter fun i => !((store.map (·.id)).contains i)) ∧
    (ids.filter fun i => !((store.map (·.id)).contains i)) ≠ [] ∧
    (∀ i, i ∈ (ids.filter fun i => !((store.map (·.id)).contains i)) ↔
      i ∈ ids ∧ i ∉ store.map (·.id)) ∧
    (∀ cars comp, compareHandler ids fetched ≠ .ok cars comp) := by
  have hflt : (ids.filter fun i => !((fetched.map (·.id)).contains i)) =
      (ids.filter fun i => !((store.map (·.id)).contains i)) := by
    apply List.filter_congr
    intro i hi
    have h := hfetch i hi
    by_cases hs : i ∈ store.map (·.id)
    · simp [hs, h.2 hs]
    · have hnf : i ∉ fetched.map (·.id) := fun hf => hs (h.1 hf)
      rw [show ((fetched.map (·.id)).contains i) = false by simpa using hnf,
        show ((store.map (·.id)).contains i) = false by simpa using hs]
  obtain ⟨i0, hi0, hni0⟩ := hmiss
  have hne : (ids.filter fun i => !((store.map (·.id)).contains i)) ≠ [] := by
    intro hnil
    have hmem : i0 ∈ (ids.filter fun i => !((store.map (·.id)).contains i)) :=
      List.mem_filter.2 ⟨hi0, by simpa using hni0⟩
    rw [hnil] at hmem
    simp at hmem
  have hinv : (ids.filter fun i => !(isValidObjectId i)) = [] := by
    rw [List.filter_eq_nil_iff]
    intro i hi
    simp [hvalid i hi]
  have hresp : compareHandler ids fetched =
      .notFound (ids.filter fun i => !((store.map (·.id)).contains i)) := by
    unfold compareHandler
    rw [if_neg (by omega)]
    simp only [hinv, hflt]
    rw [if_neg (by simp), if_pos hne]
  refine ⟨hresp, hne, ?_, ?_⟩
  · intro i
    simp [List.mem_filter]
  · intro cars comp hc
    rw [hresp] at hc
    exact CompareResp.noConfusion hc

/-- Witness for C7: request `[A, B]` with only `A` in the store. -/
theorem compare_missing_witness :
    compareHandler [idA, idB] [carA] = .notFound [idB] := by
  have h := (compare_missing_is_all_or_nothing [idA, idB] [carA] [carA]
    (by decide) (by decide) (by decide) (by decide)
    ⟨idB, by decide, by decide⟩).1
  rw [h]
  decide

/-- **C10**: compare accepts duplicate identifiers: with 2–4 well-formed
ids, some id occurring more than once and every listed id found, the
handler still succeeds, the returned list repeats the duplicated record at
each of its positions, and every comparison row carries one value per
input position. -/
theorem compare_accepts_duplicate_ids (ids : List String) (fetched : List Car)
    (h2 : 2 ≤ ids.length) (h4 : ids.length ≤ 4)
    (hvalid : ∀ i ∈ ids, isValidObjectId i = true)
    (hnodup : (fetched.map (·.id)).Nodup)
    (hfound : ∀ i ∈ ids, i ∈ fetched.map (·.id))
    (_hdup : ¬ ids.Nodup) :
    compareHandler ids fetched =
      .ok (orderedOf ids fetched) (buildComparison (orderedOf ids fetched)) ∧
    (orderedOf ids fetched).map (·.id) = ids ∧
    (∀ i j (hi : i < ids.length) (hj : j < ids.length)
        (hi' : i < (orderedOf ids fetched).length)
        (hj' : j < (orderedOf ids fetched).length),
      ids[i] = ids[j] →
      (orderedOf ids fetched)[i] = (orderedOf ids fetched)[j]) ∧
    (∀ row ∈ buildComparison (orderedOf ids fetched),
      row.values.length = ids.length) := by
  obtain ⟨hmap, hsub⟩ := orderedOf_spec ids fetched hfound
  refine ⟨compareHandler_ok ids fetched h2 h4 hvalid hfound, hmap, ?_, ?_⟩
  · intro i j hi hj hi' hj' he
    have hid : (orderedOf ids fetched)[i].id = (orderedOf ids fetched)[j].id := by
      have e1 : (orderedOf ids fetched)[i].id = ids[i] := by
        rw [List.getElem_of_eq hmap.symm hi]
        simp
      have e2 : (orderedOf ids fetched)[j].id = ids[j] := by
        rw [List.getElem_of_eq hmap.symm hj]
        simp
      rw [e1, e2, he]
    exact fetched_id_inj fetched hnodup _
      (hsub _ (List.getElem_mem hi')) _ (hsub _ (List.getElem_mem hj')) hid
  · intro row hrow
    have hvl := congrArg List.length (buildComparison_row_carIds _ row hrow)
    simp only [List.length_map] at hvl
    have hlen : (orderedOf ids fetched).length = ids.length := by
      simpa using congrArg List.length hmap
    rw [hvl, hlen]

/-- Witness for C10: `[A, B, A]` with a store batch `[B, A]`. -/
theorem compare_accepts_duplicate_ids_witness :
    compareHandler [idA, idB, idA] [carB, carA] =
      .ok (orderedOf [idA, idB, idA] [carB, carA])
        (buildComparison (orderedOf [idA, idB, idA] [carB, carA])) ∧
    (orderedOf [idA, idB, idA] [carB, carA]).map (·.id) = [idA, idB, idA] :=
  ⟨(compare_accepts_duplicate_ids [idA, idB, idA] [carB, carA] (by decide)
      (by decide) (by decide) (by decide) (by decide) (by decide)).1,
   (compare_accepts_duplicate_ids [idA, idB, idA] [carB, carA] (by decide)
      (by decide) (by decide) (by decide) (by decide) (by decide)).2.1⟩

/-- `carField` at the fixed key `"safetyRating"` reads the plain field. -/
theorem carField_safetyRating (c : Car) :
    carField c "safetyRating" = optN c.safetyRating := rfl

/-- **C9**: a comparison row's `differs` is true iff some value stringifies
differently from the first record's value — pure string equality — and in
particular a present safety rating (0–5 per the schema) against an absent
one always marks the `safetyRating` row (schema index 13) as differing. -/
theorem differs_is_string_inequality (cars : List Car) :
    (∀ row ∈ buildComparison cars, ∀ v0, row.values.head? = some v0 →
      (row.differs = true ↔
        ∃ v ∈ row.values, jsString v.value ≠ jsString v0.value)) ∧
    (∀ c0 rest n, cars = c0 :: rest → 0 ≤ n → n ≤ 5 →
      ((c0.safetyRating = some n ∧ ∃ c ∈ cars, c.safetyRating = none) ∨
       (c0.safetyRating = none ∧ ∃ c ∈ cars, c.safetyRating = some n)) →
      ((buildComparison cars).getD 13 defaultRow).differs = true) := by
  constructor
  · intro row hrow v0 hv0
    simp only [buildComparison] at hrow
    obtain ⟨kl, hkl, hre⟩ := List.mem_map.1 hrow
    subst hre
    dsimp only at hv0 ⊢
    rw [hv0]
    simp [List.any_eq_true, bne_iff_ne]
  · intro c0 rest n hcars h0 h5 hcase
    subst hcars
    simp only [buildComparison, specKeys, List.map_cons, List.getD_cons_succ,
      List.getD_cons_zero]
    dsimp only [List.head?_cons]
    rw [List.any_eq_true]
    rcases hcase with ⟨hA, c, hc, hcn⟩ | ⟨hA, c, hc, hcn⟩
    · refine ⟨SpecValue.mk c.id (carField c "safetyRating"), ?_, ?_⟩
      · rcases List.mem_cons.1 hc with h | h
        · subst h
          exact List.mem_cons_self _ _
        · exact List.mem_cons_of_mem _ (List.mem_map_of_mem _ h)
      · have hne : jsString (carField c "safetyRating") ≠
            jsString (carField c0 "safetyRating") := by
          rw [carField_safetyRating, carField_safetyRating, hA, hcn]
          simp only [optN, jsString]
          interval_cases n <;> decide
        simpa [bne_iff_ne] using hne
    · refine ⟨SpecValue.mk c.id (carField c "safetyRating"), ?_, ?_⟩
      · rcases List.mem_cons.1 hc with h | h
        · subst h
          exact List.mem_cons_self _ _
        · exact List.mem_cons_of_mem _ (List.mem_map_of_mem _ h)
      · have hne : jsString (carField c "safetyRating") ≠
            jsString (carField c0 "safetyRating") := by
          rw [carField_safetyRating, carField_safetyRating, hA, hcn]
          simp only [optN, jsString]
          interval_cases n <;> decide
        simpa [bne_iff_ne] using hne

/-- Witness for C9: `carA` (rating 5) against `carB` (no rating). -/
theorem differs_is_string_inequality_witness :
    ((buildComparison [carA, carB]).getD 13 defaultRow).differs = true :=
  (differs_is_string_inequality [carA, carB]).2 carA [carB] 5 rfl (by decide)
    (by decide) (Or.inl ⟨rfl, carB, by decide, rfl⟩)

/-- **C8** (amended): the derived price value is the four-way case split of
the claim, with a bound counting as "present" when it is set and nonzero
(JavaScript-truthy): single formatted value when both such bounds exist
and are equal, hyphenated range when both exist and differ, the single
such bound when exactly one exists, and the absent sentinel otherwise
(including when a stored bound is 0). -/
theorem priceValue_eq_amended (c : Car) : priceValue c = priceValueAmended c := by
  rcases hp : c.price with - | p
  · simp [priceValue, priceValueAmended, hp]
  · rcases hmin : p.min with - | a <;> rcases hmax : p.max with - | b
    · simp [priceValue, priceValueAmended, presentBound, truthyNum, hp, hmin, hmax]
    · by_cases hb : b = 0 <;>
        simp [priceValue, priceValueAmended, presentBound, truthyNum, hp, hmin, hmax, hb]
    · by_cases ha : a = 0 <;>
        simp [priceValue, priceValueAmended, presentBound, truthyNum, hp, hmin, hmax, ha]
    · by_cases ha : a = 0 <;> by_cases hb : b = 0 <;>
        simp [priceValue, priceValueAmended, presentBound, truthyNum, hp, hmin, hmax, ha, hb]

/-- Counterexample to C8 as stated: a record with price `{min: 0, max: 0}`
has both bounds present and equal, so the claim's reading demands the
single formatted value `₹0`; the code's truthiness guards treat the zero
bounds as absent and produce the absent sentinel instead. -/
theorem priceValue_zero_bound_counterexample :
    carZeroPrice.price = some ⟨some 0, some 0⟩ ∧
    priceValueSpec carZeroPrice = .vstr (fmtINR 0) ∧
    priceValue carZeroPrice = .vnull ∧
    priceValue carZeroPrice ≠ priceValueSpec carZeroPrice := by
  refine ⟨rfl, rfl, rfl, ?_⟩
  decide

/-- A parameter that parsed to a number was truthy (nonempty). -/
theorem parseParamNum_num_truthy (o : Option String) (a : Int)
    (h : parseParamNum o = .num a) : truthyStr o = true := by
  cases o with
  | none => simp [parseParamNum] at h
  | some s =>
    by_cases hs : s = ""
    · rw [parseParamNum, if_pos hs] at h
      cases h
    · simp [truthyStr, hs]

/-- A successful listing response fixes the query fields from the
parameters: the price `$or`, the resolved limit, page and sort. -/
theorem listHandler_ok_inv (p : ListParams) (qy : ListQuery)
    (h : listHandler p = .ok qy) :
    priceOrE p = .ok qy.priceOr ∧
    qy.limit = resolveLimit p.limit ∧
    qy.page = resolvePage p.page ∧
    qy.sortSpec = sortOption (p.sort.getD "newest") := by
  unfold listHandler at h
  rcases hpr : priceOrE p with e | o <;> rw [hpr] at h
  · cases h
  · rcases hpo : powerE p with e | mp <;> rw [hpo] at h
    · cases h
    · rcases hy : yearE p with e | ly <;> rw [hy] at h
      · cases h
      · injection h with h2
        subst h2
        exact ⟨rfl, rfl, rfl, rfl⟩

/-- **C4**: when both price bounds are present and numeric with
minPrice > maxPrice, the listing handler answers the 400
`minPrice cannot be greater than maxPrice` error regardless of every other
parameter, and issues no store query (no `.ok` store request exists). -/
theorem min_gt_max_rejected (p : ListParams) (a b : Int)
    (hmn : parseParamNum p.minPrice = .num a)
    (hmx : parseParamNum p.maxPrice = .num b)
    (hgt : a > b) :
    listHandler p = .error .minGreaterThanMax ∧
    ∀ qy, listHandler p ≠ .ok qy := by
  have htr : truthyStr p.minPrice = true := parseParamNum_num_truthy _ _ hmn
  have hpr : priceOrE p = .error .minGreaterThanMax := by
    unfold priceOrE
    rw [htr, hmn, hmx]
    simp [pricePredicate, hgt]
  have hmain : listHandler p = .error .minGreaterThanMax := by
    unfold listHandler
    rw [hpr]
  refine ⟨hmain, fun qy hq => ?_⟩
  rw [hmain] at hq
  cases hq

/-- Witness for C4: `minPrice=5`, `maxPrice=4`, with unrelated brand, tag
and sort parameters also present. -/
theorem min_gt_max_rejected_witness :
    listHandler pMinGtMax = .error .minGreaterThanMax :=
  (min_gt_max_rejected pMinGtMax 5 4 (by decide) (by decide) (by decide)).1

/-- **C3**: with numeric `minPrice ≤ maxPrice` and a successful compile,
the compiled price predicate is exactly the claim's disjunction —
(a) record `price.min` within the range, (b) record `price.max` within the
range, (c) record spans the range — and consequently a record interval
that is inside, containing, or overlapping the query range matches, while
a strictly disjoint record interval does not. -/
theorem price_filter_is_overlap_disjunction (p : ListParams) (qy : ListQuery)
    (a b : Int)
    (hmn : parseParamNum p.minPrice = .num a)
    (hmx : parseParamNum p.maxPrice = .num b)
    (hle : a ≤ b)
    (hok : listHandler p = .ok qy) :
    qy.priceOr = some [.minBetween a b, .maxBetween a b, .spans a b] ∧
    (∀ x y : Int,
      evalPriceOr [.minBetween a b, .maxBetween a b, .spans a b]
          (some x) (some y) = true ↔
        ((a ≤ x ∧ x ≤ b) ∨ (a ≤ y ∧ y ≤ b) ∨ (x ≤ a ∧ b ≤ y))) ∧
    (∀ x y : Int, x ≤ y →
      ((x ≤ b ∧ a ≤ y) →
        evalPriceOr [.minBetween a b, .maxBetween a b, .spans a b]
          (some x) (some y) = true) ∧
      ((y < a ∨ b < x) →
        evalPriceOr [.minBetween a b, .maxBetween a b, .spans a b]
          (some x) (some y) = false)) := by
  have htr : truthyStr p.minPrice = true := parseParamNum_num_truthy _ _ hmn
  have hpr : priceOrE p =
      .ok (some [.minBetween a b, .maxBetween a b, .spans a b]) := by
    unfold priceOrE
    rw [htr, hmn, hmx]
    simp [pricePredicate, not_lt.2 hle]
  obtain ⟨hpo, -, -, -⟩ := listHandler_ok_inv p qy hok
  rw [hpr] at hpo
  have hsem : ∀ x y : Int,
      evalPriceOr [.minBetween a b, .maxBetween a b, .spans a b]
          (some x) (some y) = true ↔
        ((a ≤ x ∧ x ≤ b) ∨ (a ≤ y ∧ y ≤ b) ∨ (x ≤ a ∧ b ≤ y)) := by
    intro x y
    simp only [evalPriceOr, List.any_cons, List.any_nil, evalClause,
      Bool.or_eq_true, Bool.and_eq_true, decide_eq_true_eq, Bool.or_false]
  refine ⟨(Except.ok.inj hpo).symm, hsem, ?_⟩
  intro x y hxy
  refine ⟨fun hov => (hsem x y).2 (by omega), fun hout => ?_⟩
  cases heval : evalPriceOr [.minBetween a b, .maxBetween a b, .spans a b]
      (some x) (some y) with
  | false => rfl
  | true => exact absurd ((hsem x y).1 heval) (by omega)

/-- Witness for C3: query range [600000, 650000]; the spec's example
record [500000, 700000] (a record interval containing the query range)
matches via the `spans` disjunct. -/
theorem price_filter_witness :
    (listHandler pPriceExample).map (fun qy => qy.priceOr) =
      .ok (some [.minBetween 600000 650000, .maxBetween 600000 650000,
        .spans 600000 650000]) ∧
    evalPriceOr [.minBetween 600000 650000, .maxBetween 600000 650000,
      .spans 600000 650000] (some 500000) (some 700000) = true := by
  have hq : listHandler pPriceExample = .ok
      { textSearch := none, brand := none, bodyType := none, fuelType := none
        transmission := none
        priceOr := some [.minBetween 600000 650000, .maxBetween 600000 650000,
          .spans 600000 650000]
        minPower := none, launchYear := none, discontinued := none, tags := none
        sortSpec := .spec ⟨.createdAt, .desc⟩, page := 1, limit := 12
        skip := 0 } := by decide
  have h := price_filter_is_overlap_disjunction pPriceExample _ 600000 650000
    (by decide) (by decide) (by decide) hq
  exact ⟨by rw [hq]; exact congrArg Except.ok h.1,
    (h.2.2 500000 700000 (by decide)).1 (by decide)⟩

/-- **C5** (amended): whenever the listing handler issues a store query,
the page size lies in [1, 50]; a limit parsing to a nonzero number `n` is
clamped to `min (max n 1) 50` (so 1000 yields 50 and -5 yields 1); an
absent, non-numeric, or zero limit falls back to the default 12; an absent
or non-numeric page falls back to 1. -/
theorem limit_clamped_amended (p : ListParams) (qy : ListQuery)
    (h : listHandler p = .ok qy) :
    (1 ≤ qy.limit ∧ qy.limit ≤ 50) ∧
    (∀ s n, p.limit = some s → jsNumber s = some n → n ≠ 0 →
      qy.limit = min (max n 1) 50) ∧
    ((p.limit = none ∨
        ∃ s, p.limit = some s ∧ (jsNumber s = none ∨ jsNumber s = some 0)) →
      qy.limit = 12) ∧
    ((p.page = none ∨ ∃ s, p.page = some s ∧ jsNumber s = none) →
      qy.page = 1) := by
  obtain ⟨-, hl, hp2, -⟩ := listHandler_ok_inv p qy h
  refine ⟨?_, ?_, ?_, ?_⟩
  · rw [hl]
    unfold resolveLimit
    exact ⟨le_min (le_max_right _ _) (by decide), min_le_right _ _⟩
  · intro s n hs hn hnz
    rw [hl, hs]
    show min (max (numOr (jsNumber s) 12) 1) 50 = min (max n 1) 50
    rw [hn]
    simp [numOr, hnz]
  · intro hcase
    rw [hl]
    rcases hcase with hnone | ⟨s, hs, hv⟩
    · rw [hnone]
      decide
    · rw [hs]
      show min (max (numOr (jsNumber s) 12) 1) 50 = 12
      rcases hv with hv | hv <;> rw [hv] <;> decide
  · intro hcase
    rw [hp2]
    rcases hcase with hnone | ⟨s, hs, hv⟩
    · rw [hnone]
      decide
    · rw [hs]
      show max (numOr (jsNumber s) 1) 1 = 1
      rw [hv]
      decide

/-- Witness for C5 (amended): `limit=1000` is clamped to 50. -/
theorem limit_clamped_witness :
    (listHandler pLimit1000).map (fun qy => qy.limit) =
      .ok (min (max (1000:Int) 1) 50) ∧
    min (max (1000:Int) 1) 50 = 50 := by
  have hq : listHandler pLimit1000 = .ok
      { textSearch := none, brand := none, bodyType := none, fuelType := none
        transmission := none, priceOr := none, minPower := none
        launchYear := none, discontinued := none, tags := none
        sortSpec := .spec ⟨.createdAt, .desc⟩, page := 1, limit := 50
        skip := 0 } := by decide
  have h := (limit_clamped_amended pLimit1000 _ hq).2.1 "1000" 1000 rfl
    (by decide) (by decide)
  exact ⟨by rw [hq]; exact congrArg Except.ok h, by decide⟩

/-- Counterexample to C5 as stated: `limit=0` is numeric and ≤ 0, so the
claimed clamp into [1, 50] demands an effective page size of 1, but
`Number(limit) || 12` treats 0 as falsy and the handler uses the default
12 instead. -/
theorem limit_zero_counterexample :
    jsNumber "0" = some 0 ∧
    (listHandler pLimitZero).map (fun qy => qy.limit) = .ok 12 ∧
    min (max (0:Int) 1) 50 = 1 ∧ (12:Int) ≠ 1 := by
  refine ⟨rfl, ?_, by decide, by decide⟩
  rfl

/-- **C6** (the code evaluated at the failing input): `"constructor"` is
not one of the ten enumerated sort tokens, yet `SORT_FIELDS['constructor']`
finds the member inherited from `Object.prototype`; that value is truthy,
so the `|| SORT_FIELDS.newest` fallback never fires and the resolved sort
is not `newest` (`{createdAt: -1}`).  A token hitting neither an own nor
an inherited property (e.g. `"bogus"`) does fall back to `newest`. -/
theorem sort_proto_token_breaks_fallback :
    SORT_FIELDS "constructor" = none ∧
    sortOption "constructor" = .protoMember "constructor" ∧
    sortOption "constructor" ≠ .spec ⟨.createdAt, .desc⟩ ∧
    sortOption "bogus" = .spec ⟨.createdAt, .desc⟩ := by
  refine ⟨rfl, rfl, ?_, rfl⟩
  decide

end Carverse
